import Mathlib

/-!
Shallow embedding of the security module of the `whatsapp-dual` Electron
application (`security.js`), together with proofs about its PIN handling,
failed-attempt escalation, lockout and secure-delete logic.

The store (`electron-store`) keys under `security.*` are modelled as the
fields of `SecState`; `store.get(key, default)` is modelled as reading the
resolved field value (defaults are initial values).  The PBKDF2 hash
`hashPIN` is an abstract parameter `H : String → String → String`; the
`safeStorage` encrypt/decrypt round trip is the identity on the stored
`{salt, hash}` record.  `Date.now()` is an explicit `now : Nat` argument,
and the fresh random salt of `setPIN` is an explicit `salt` argument.
-/

/-- The `{salt, hash}` record that `setPIN` serialises into
`security.pinData`. -/
structure PinRecord where
  salt : String
  hash : String
deriving Repr, DecidableEq

/-- The persistent security state: the `security.*` store keys plus the
module-level `isLocked` flag, and a `sessionsWiped` flag recording that
`secureDeleteAllSessions()` has run. -/
structure SecState where
  /-- `security.pinData` (decrypted): `none` when the key is absent. -/
  pinData : Option PinRecord
  /-- `security.pinEnabled`. -/
  pinEnabled : Bool
  /-- `security.failedAttempts` (default 0). -/
  failedAttempts : Nat
  /-- `security.lastFailedAttempt`: `none` when deleted; `store.get`
  defaults it to 0. -/
  lastFailedAttempt : Option Nat
  /-- `security.maxAttempts` (default 10). -/
  maxAttempts : Nat
  /-- `security.lockoutDuration` in minutes (default 30). -/
  lockoutDurationMin : Nat
  /-- `security.deleteOnMaxAttempts` (default false, "paranoia mode"). -/
  deleteOnMaxAttempts : Bool
  /-- module-level `isLocked`. -/
  isLocked : Bool
  /-- true once `secureDeleteAllSessions()` has executed. -/
  sessionsWiped : Bool
deriving Repr, DecidableEq

/-- The result objects returned by `verifyPIN` / `handleFailedAttempt`. -/
inductive VerifyResult where
  /-- `{success:false, locked:true, remainingTime}` from the lockout check. -/
  | lockedOut (remainingTime : Int)
  /-- `{success:false, message:'PIN not set'}`. -/
  | pinNotSet
  /-- `{success:true}`. -/
  | ok
  /-- `{success:false, deleted:true, ...}` — paranoia-mode wipe. -/
  | wiped
  /-- `{success:false, attempts, remaining, delay, locked, ...}`. -/
  | failed (attempts : Nat) (remaining : Nat) (delay : Nat) (locked : Bool)
deriving Repr, DecidableEq

/-- The `.success` field of a verify result object. -/
def VerifyResult.success : VerifyResult → Bool
  | .ok => true
  | _ => false

/-- `DELAY_SCHEDULE`: `(attempts bound, delay ms)` rows; `none` stands for
`Infinity`. -/
def DELAY_SCHEDULE : List (Option Nat × Nat) :=
  [(some 3, 0), (some 5, 5000), (some 7, 30000), (some 9, 300000),
   (none, 1800000)]

/-- `attempts <= schedule.attempts`, where the bound may be `Infinity`. -/
def leBound (attempts : Nat) : Option Nat → Bool
  | none => true
  | some b => attempts ≤ b

/-- Loop body of `getDelayForAttempts`; the fallback return value is
`DELAY_SCHEDULE[DELAY_SCHEDULE.length - 1].delay = 1800000`. -/
def getDelayAux (attempts : Nat) : List (Option Nat × Nat) → Nat
  | [] => 1800000
  | (b, d) :: rest => if leBound attempts b then d else getDelayAux attempts rest

/-- `getDelayForAttempts(attempts)`. -/
def getDelayForAttempts (attempts : Nat) : Nat :=
  getDelayAux attempts DELAY_SCHEDULE

/-- `resetFailedAttempts()`: zero the counter, delete the timestamp. -/
def resetFailedAttempts (s : SecState) : SecState :=
  { s with failedAttempts := 0, lastFailedAttempt := none }

/-- `secureDeleteAllSessions()` viewed at the `SecState` level: both session
partitions are destroyed. -/
def secureDeleteAllSessions (s : SecState) : SecState :=
  { s with sessionsWiped := true }

/-- `handleFailedAttempt()`: bump the counter, stamp the failure time, then
either wipe (paranoia mode at the threshold) or report the failure with the
scheduled delay. -/
def handleFailedAttempt (s : SecState) (now : Nat) : SecState × VerifyResult :=
  let attempts := s.failedAttempts + 1
  let maxAttempts := s.maxAttempts
  let s1 := { s with failedAttempts := attempts, lastFailedAttempt := some now }
  let delay := getDelayForAttempts attempts
  let remaining := maxAttempts - attempts   -- Math.max(0, maxAttempts - attempts)
  if maxAttempts ≤ attempts ∧ s.deleteOnMaxAttempts = true then
    (secureDeleteAllSessions s1, .wiped)
  else
    (s1, .failed attempts remaining delay (decide (maxAttempts ≤ attempts)))

/-- The `{locked, remainingTime}` object of `checkLockout`. -/
structure LockoutStatus where
  locked : Bool
  /-- `remainingTime`; 0 models the absent field of `{locked:false}`. -/
  remainingTime : Int
deriving Repr, DecidableEq

/-- `checkLockout()`: read the counters, and when the threshold is reached
compare the elapsed time with the lockout duration; an expired lockout
resets the failed attempts (lazy reset). -/
def checkLockout (s : SecState) (now : Nat) : SecState × LockoutStatus :=
  let attempts := s.failedAttempts
  let lastFailed := s.lastFailedAttempt.getD 0
  let lockoutDuration : Int := s.lockoutDurationMin * 60 * 1000
  if s.maxAttempts ≤ attempts then
    let elapsed : Int := (now : Int) - (lastFailed : Int)
    if elapsed < lockoutDuration then
      (s, ⟨true, lockoutDuration - elapsed⟩)
    else
      (resetFailedAttempts s, ⟨false, 0⟩)
  else
    (s, ⟨false, 0⟩)

/-- `verifyPIN(pin)`, parametric in the PBKDF2 hash `H`. -/
def verifyPIN (H : String → String → String) (pin : String) (s : SecState)
    (now : Nat) : SecState × VerifyResult :=
  let r := checkLockout s now
  let s1 := r.1
  if r.2.locked then
    (s1, .lockedOut r.2.remainingTime)
  else
    match s1.pinData with
    | none => (s1, .pinNotSet)
    | some pd =>
      if H pin pd.salt = pd.hash then
        (resetFailedAttempts s1, .ok)
      else
        handleFailedAttempt s1 now

/-- `setPIN(pin)`: reject empty / too-short / too-long input, otherwise
store the salted hash, enable the PIN and reset the attempt counters.  The
fresh `crypto.randomBytes(32)` salt is the `salt` argument. -/
def setPIN (H : String → String → String) (pin salt : String) (s : SecState) :
    SecState × Bool :=
  if pin = "" ∨ pin.length < 4 ∨ 8 < pin.length then
    (s, false)
  else
    let hash := H pin salt
    let s1 := { s with pinData := some ⟨salt, hash⟩, pinEnabled := true }
    (resetFailedAttempts s1, true)

/-- `changePIN(currentPIN, newPIN)`; the Bool is the `.success` field of the
returned object. -/
def changePIN (H : String → String → String) (currentPIN newPIN salt : String)
    (s : SecState) (now : Nat) : SecState × Bool :=
  let v := verifyPIN H currentPIN s now
  if v.2.success = false then
    (v.1, false)
  else
    setPIN H newPIN salt v.1

/-- `removePIN(currentPIN)`; the Bool is the `.success` field of the
returned object. -/
def removePIN (H : String → String → String) (currentPIN : String)
    (s : SecState) (now : Nat) : SecState × Bool :=
  let v := verifyPIN H currentPIN s now
  if v.2.success = false then
    (v.1, false)
  else
    (resetFailedAttempts
      { v.1 with pinData := none, pinEnabled := false }, true)

/-- `isPINSet()`: `store.has('security.pinData')`. -/
def isPINSet (s : SecState) : Bool :=
  s.pinData.isSome

/-- `unlockApp(pin)`: verify, and on success clear `isLocked`. -/
def unlockApp (H : String → String → String) (pin : String) (s : SecState)
    (now : Nat) : SecState × VerifyResult :=
  let r := verifyPIN H pin s now
  if r.2.success then
    ({ r.1 with isLocked := false }, r.2)
  else
    r

/-- `validatePIN()` from the PIN-setup renderer: 4–8 characters, all
digits (`/^\d*$/`). -/
def validatePIN (currentPIN : String) : Bool :=
  (decide (4 ≤ currentPIN.length) && decide (currentPIN.length ≤ 8))
    && currentPIN.toList.all Char.isDigit

/-!
File-system model for `secureDeleteFile`.  A file system is an association
list from paths to file info; the `writable` / `deletable` flags say
whether `fs.writeFileSync` / `fs.unlinkSync` succeed on the path or throw
(e.g. a read-only file).  `crypto.randomBytes` is an explicit source
`rand : Nat → Nat → List Nat` (pass index, byte count ↦ bytes).
-/

/-- A file: its byte content and whether writes / unlinks succeed on it. -/
structure FileInfo where
  content : List Nat
  writable : Bool
  deletable : Bool
deriving Repr, DecidableEq

/-- File system: association list path ↦ file. -/
abbrev FSState := List (String × FileInfo)

/-- `fs.existsSync` / stat lookup. -/
def fsLookup (fs : FSState) (p : String) : Option FileInfo :=
  (fs.find? (fun e => e.1 == p)).map (·.2)

/-- Successful `fs.unlinkSync`: drop the entry. -/
def fsRemove (fs : FSState) (p : String) : FSState :=
  fs.filter (fun e => !(e.1 == p))

/-- Successful `fs.writeFileSync`: replace the content. -/
def fsWrite (fs : FSState) (p : String) (data : List Nat) : FSState :=
  fs.map (fun e => if e.1 == p then (e.1, { e.2 with content := data }) else e)

/-- A file-system side effect performed by `secureDeleteFile`. -/
inductive FSEvent where
  | write (path : String) (data : List Nat)
  | unlink (path : String)
deriving Repr, DecidableEq

/-- Everything `secureDeleteFile` produces: the final file system, the
sequence of successful fs operations, whether the fallback `catch` block
ran, and the exception escaping to the caller (the source catches
everything, so it is `none` on every path; the JS return value is
`undefined` on every path). -/
structure SDOutcome where
  fs : FSState
  events : List FSEvent
  usedFallback : Bool
  thrown : Option String
deriving Repr, DecidableEq

/-- `secureDeleteFile(filePath)`: if the file exists, overwrite it with
three passes of `crypto.randomBytes(stat.size)` and unlink it; if any of
that throws, fall back to a plain `fs.unlinkSync` whose own failure is
ignored. -/
def secureDeleteFile (rand : Nat → Nat → List Nat) (fs : FSState)
    (p : String) : SDOutcome :=
  match fsLookup fs p with
  | none => ⟨fs, [], false, none⟩
  | some info =>
    let size := info.content.length
    if info.writable then
      let fs1 := fsWrite fs p (rand 0 size)
      let fs2 := fsWrite fs1 p (rand 1 size)
      let fs3 := fsWrite fs2 p (rand 2 size)
      let evs := [FSEvent.write p (rand 0 size), FSEvent.write p (rand 1 size),
                  FSEvent.write p (rand 2 size)]
      if info.deletable then
        ⟨fsRemove fs3 p, evs ++ [FSEvent.unlink p], false, none⟩
      else
        -- `fs.unlinkSync` throws; the fallback unlink throws again and is
        -- ignored by the inner catch
        ⟨fs3, evs, true, none⟩
    else
      -- the first `fs.writeFileSync` throws; fallback plain unlink
      if info.deletable then
        ⟨fsRemove fs p, [FSEvent.unlink p], true, none⟩
      else
        ⟨fs, [], true, none⟩

/-!  Shared concrete states and helper functions for the theorems. -/

/-- `SECURITY_DEFAULTS` resolved into a fresh-install state. -/
def baseState : SecState :=
  { pinData := none, pinEnabled := false, failedAttempts := 0,
    lastFailedAttempt := none, maxAttempts := 10, lockoutDurationMin := 30,
    deleteOnMaxAttempts := false, isLocked := false, sessionsWiped := false }

/-- A concrete stand-in for the PBKDF2 hash, used to instantiate the
abstract `H` in witnesses. -/
def H0 : String → String → String := fun p s => p ++ s

/-- A concrete stand-in for `crypto.randomBytes`. -/
def rand0 : Nat → Nat → List Nat := fun _ n => List.replicate n 0

/-!  Helper lemmas. -/

/-- Closed form of the `DELAY_SCHEDULE` walk. -/
theorem getDelayForAttempts_closed (n : Nat) :
    getDelayForAttempts n =
      if n ≤ 3 then 0 else if n ≤ 5 then 5000 else if n ≤ 7 then 30000
      else if n ≤ 9 then 300000 else 1800000 := by
  simp [getDelayForAttempts, DELAY_SCHEDULE, getDelayAux, leBound]

/-- `handleFailedAttempt` never reports success, always bumps the counter
by one and stamps the failure time. -/
theorem handleFailedAttempt_state (s : SecState) (now : Nat) :
    (handleFailedAttempt s now).1.failedAttempts = s.failedAttempts + 1 ∧
    (handleFailedAttempt s now).1.lastFailedAttempt = some now ∧
    ((handleFailedAttempt s now).2).success = false := by
  simp only [handleFailedAttempt, secureDeleteAllSessions]
  split_ifs <;> simp [VerifyResult.success]

/-- `handleFailedAttempt` keeps the PIN record, the enable flag and the
configuration fields. -/
theorem handleFailedAttempt_preserves (s : SecState) (now : Nat) :
    (handleFailedAttempt s now).1.pinData = s.pinData ∧
    (handleFailedAttempt s now).1.pinEnabled = s.pinEnabled ∧
    (handleFailedAttempt s now).1.maxAttempts = s.maxAttempts := by
  simp only [handleFailedAttempt, secureDeleteAllSessions]
  split_ifs <;> simp

/-- `checkLockout` touches only the attempt counters. -/
theorem checkLockout_preserves (s : SecState) (now : Nat) :
    (checkLockout s now).1.pinData = s.pinData ∧
    (checkLockout s now).1.pinEnabled = s.pinEnabled ∧
    (checkLockout s now).1.maxAttempts = s.maxAttempts ∧
    (checkLockout s now).1.lockoutDurationMin = s.lockoutDurationMin ∧
    (checkLockout s now).1.deleteOnMaxAttempts = s.deleteOnMaxAttempts ∧
    (checkLockout s now).1.isLocked = s.isLocked := by
  simp only [checkLockout, resetFailedAttempts]
  split_ifs <;> simp

/-- Resetting an already-reset state is the identity. -/
theorem resetFailedAttempts_eq_self (s : SecState)
    (h0 : s.failedAttempts = 0) (hn : s.lastFailedAttempt = none) :
    resetFailedAttempts s = s := by
  cases s
  simp_all [resetFailedAttempts]

/-- On a state with a clean attempt record and a positive threshold,
`checkLockout` is the identity and reports no lockout. -/
theorem checkLockout_fresh (s : SecState) (now : Nat)
    (h0 : s.failedAttempts = 0) (hmax : 0 < s.maxAttempts) :
    checkLockout s now = (s, ⟨false, 0⟩) := by
  simp only [checkLockout]
  rw [if_neg (by omega)]

/-- `setPIN` on input of accepted length: the stored record and the reset. -/
theorem setPIN_accepted (H : String → String → String) (pin salt : String)
    (s : SecState) (h4 : 4 ≤ pin.length) (h8 : pin.length ≤ 8) :
    setPIN H pin salt s =
      (resetFailedAttempts
        { s with pinData := some ⟨salt, H pin salt⟩, pinEnabled := true },
       true) := by
  have hne : ¬(pin = "" ∨ pin.length < 4 ∨ 8 < pin.length) := by
    push_neg
    refine ⟨?_, by omega, by omega⟩
    intro h
    rw [h] at h4
    exact absurd h4 (by decide)
  simp only [setPIN]
  rw [if_neg hne]

/-- A failed attempt is never reported as success. -/
theorem handleFailedAttempt_not_ok (s : SecState) (now : Nat) :
    (handleFailedAttempt s now).2 ≠ .ok := by
  simp only [handleFailedAttempt, secureDeleteAllSessions]
  split_ifs <;> simp

/-- `verifyPIN` of the matching PIN on a clean attempt record succeeds and
resets the counters. -/
theorem verifyPIN_fresh_right (H : String → String → String) (pin : String)
    (s : SecState) (now : Nat) (pd : PinRecord)
    (hpd : s.pinData = some pd) (h0 : s.failedAttempts = 0)
    (hmax : 0 < s.maxAttempts) (hh : H pin pd.salt = pd.hash) :
    verifyPIN H pin s now = (resetFailedAttempts s, .ok) := by
  simp only [verifyPIN, checkLockout_fresh s now h0 hmax, hpd, hh, if_pos]
  simp

/-- `verifyPIN` of a non-matching PIN on a clean attempt record with a
threshold above 1: one failure is recorded, with the tier-1 delay 0. -/
theorem verifyPIN_fresh_wrong (H : String → String → String) (pin : String)
    (s : SecState) (now : Nat) (pd : PinRecord)
    (hpd : s.pinData = some pd) (h0 : s.failedAttempts = 0)
    (hmax : 1 < s.maxAttempts) (hh : ¬ H pin pd.salt = pd.hash) :
    verifyPIN H pin s now =
      ({ s with failedAttempts := 1, lastFailedAttempt := some now },
       .failed 1 (s.maxAttempts - 1) 0 false) := by
  have h0' : 0 < s.maxAttempts := by omega
  have hnw : ¬(s.maxAttempts ≤ s.failedAttempts + 1 ∧ s.deleteOnMaxAttempts = true) := by
    rintro ⟨h1, -⟩
    omega
  have hd : ¬ s.maxAttempts ≤ 1 := by omega
  simp [verifyPIN, checkLockout_fresh s now h0 h0', hpd, hh, handleFailedAttempt,
        hnw, getDelayForAttempts_closed, h0, hd]

/-- `verifyPIN` of a non-matching PIN strictly below the threshold goes
through `handleFailedAttempt` on the unchanged state. -/
theorem verifyPIN_wrong_below (H : String → String → String) (pin : String)
    (s : SecState) (now : Nat) (pd : PinRecord)
    (hpd : s.pinData = some pd) (hh : ¬ H pin pd.salt = pd.hash)
    (hbelow : s.failedAttempts < s.maxAttempts) :
    verifyPIN H pin s now = handleFailedAttempt s now := by
  have hcl : checkLockout s now = (s, ⟨false, 0⟩) := by
    simp only [checkLockout]
    rw [if_neg (by omega)]
  simp only [verifyPIN, hcl, hpd, hh]
  simp

/-- A successful verification went through the matching-hash branch: the
stored record exists and matches, and the result state is the post-lockout
state with the counters reset. -/
theorem verifyPIN_ok_inv (H : String → String → String) (pin : String)
    (s : SecState) (now : Nat)
    (hok : (verifyPIN H pin s now).2 = .ok) :
    (∃ pd, s.pinData = some pd ∧ H pin pd.salt = pd.hash) ∧
    (verifyPIN H pin s now).1 = resetFailedAttempts (checkLockout s now).1 := by
  have hpin : (checkLockout s now).1.pinData = s.pinData :=
    (checkLockout_preserves s now).1
  simp only [verifyPIN] at hok ⊢
  by_cases hl : (checkLockout s now).2.locked
  · simp [hl] at hok
  · simp only [hl, Bool.false_eq_true, if_false] at hok ⊢
    cases hpd : (checkLockout s now).1.pinData with
    | none => simp [hpd] at hok
    | some pd =>
      simp only [hpd] at hok ⊢
      by_cases hh : H pin pd.salt = pd.hash
      · exact ⟨⟨pd, by rw [← hpin, hpd], hh⟩, by simp [hh]⟩
      · rw [if_neg hh] at hok
        exact absurd hok (handleFailedAttempt_not_ok _ _)

/-- `verifyPIN` never changes the stored PIN record or the enable flag. -/
theorem verifyPIN_preserves (H : String → String → String) (pin : String)
    (s : SecState) (now : Nat) :
    (verifyPIN H pin s now).1.pinData = s.pinData ∧
    (verifyPIN H pin s now).1.pinEnabled = s.pinEnabled := by
  have hc := checkLockout_preserves s now
  have hf := handleFailedAttempt_preserves (checkLockout s now).1 now
  simp only [verifyPIN]
  by_cases hl : (checkLockout s now).2.locked
  · simp [hl, hc.1, hc.2.1]
  · simp only [hl, Bool.false_eq_true, if_false]
    cases hpd : (checkLockout s now).1.pinData with
    | none => simp [hc.1, hc.2.1]
    | some pd =>
      simp only [hpd]
      by_cases hh : H pin pd.salt = pd.hash
      · rw [if_pos hh]
        exact ⟨by simpa [resetFailedAttempts] using hc.1,
               by simpa [resetFailedAttempts] using hc.2.1⟩
      · rw [if_neg hh]
        exact ⟨hf.1.trans hc.1, hf.2.1.trans hc.2.1⟩

/-- Removing a path makes it unfindable. -/
theorem fsLookup_fsRemove (fs : FSState) (p : String) :
    fsLookup (fsRemove fs p) p = none := by
  induction fs with
  | nil => rfl
  | cons e t ih =>
    simp only [fsLookup, fsRemove, List.filter_cons] at ih ⊢
    cases h : (e.1 == p) with
    | true => simp [h]
    | false => simp [h, List.find?_cons, ih]

/-- A state with the PIN "1234" configured under the hash `H0` and salt
"s" (so the stored hash is "1234s"). -/
def sPinned : SecState :=
  { baseState with pinData := some ⟨"s", "1234s"⟩, pinEnabled := true }

/-- C1: Wipe precedence — for every state with paranoia mode enabled, the
failed attempt that brings the stored count up to `maxAttempts` returns the
wiped outcome and triggers the session wipe, and schedules no lockout
delay; with paranoia mode off, the same threshold attempt under the default
`maxAttempts = 10` returns the locked-out outcome with the 30-minute
final-tier delay. -/
theorem C1_wipe_precedence (s : SecState) (now : Nat)
    (h : s.failedAttempts + 1 = s.maxAttempts) :
    (s.deleteOnMaxAttempts = true →
      (handleFailedAttempt s now).2 = VerifyResult.wiped ∧
      (handleFailedAttempt s now).1.sessionsWiped = true ∧
      ∀ a r d l, (handleFailedAttempt s now).2 ≠ VerifyResult.failed a r d l) ∧
    (s.deleteOnMaxAttempts = false → s.maxAttempts = 10 →
      (handleFailedAttempt s now).2 = VerifyResult.failed 10 0 1800000 true) := by
  constructor
  · intro hp
    have hcond : s.maxAttempts ≤ s.failedAttempts + 1 ∧
        s.deleteOnMaxAttempts = true := ⟨by omega, hp⟩
    simp only [handleFailedAttempt, secureDeleteAllSessions]
    rw [if_pos hcond]
    simp
  · intro hp hm
    have h9 : s.failedAttempts = 9 := by omega
    simp [handleFailedAttempt, hp, h9, hm, getDelayForAttempts_closed]

/-- Witness for C1: at nine prior failures under the default threshold 10,
the tenth failure wipes when paranoia mode is on and locks out with the
30-minute delay when it is off. -/
theorem C1_wipe_precedence_witness :
    (handleFailedAttempt
        { baseState with failedAttempts := 9, deleteOnMaxAttempts := true } 0).2 =
      VerifyResult.wiped ∧
    (handleFailedAttempt { baseState with failedAttempts := 9 } 0).2 =
      VerifyResult.failed 10 0 1800000 true :=
  ⟨((C1_wipe_precedence _ 0 (by decide)).1 (by decide)).1,
   (C1_wipe_precedence _ 0 (by decide)).2 (by decide) (by decide)⟩

/-- C2: Setup/unlock round trip — for every PIN of 4–8 digits and a
positive attempt threshold (so the freshly reset record is not locked out),
`setPIN` followed by `unlockApp` with the same PIN succeeds and leaves the
application unlocked. -/
theorem C2_setup_unlock (H : String → String → String) (pin salt : String)
    (s : SecState) (now : Nat)
    (h4 : 4 ≤ pin.length) (h8 : pin.length ≤ 8)
    (_hdig : pin.toList.all Char.isDigit = true)
    (hmax : 0 < s.maxAttempts) :
    (unlockApp H pin (setPIN H pin salt s).1 now).2 = VerifyResult.ok ∧
    (unlockApp H pin (setPIN H pin salt s).1 now).1.isLocked = false := by
  rw [setPIN_accepted H pin salt s h4 h8]
  set s1 : SecState := resetFailedAttempts
    { s with pinData := some ⟨salt, H pin salt⟩, pinEnabled := true } with hs1
  have hpd : s1.pinData = some ⟨salt, H pin salt⟩ := rfl
  have h0 : s1.failedAttempts = 0 := rfl
  have hm : 0 < s1.maxAttempts := hmax
  have hv := verifyPIN_fresh_right H pin s1 now ⟨salt, H pin salt⟩ hpd h0 hm rfl
  simp [unlockApp, hv, VerifyResult.success]

/-- Witness for C2 with PIN "1234" on a fresh default-configured state. -/
theorem C2_setup_unlock_witness :
    (unlockApp H0 "1234" (setPIN H0 "1234" "s" baseState).1 0).2 =
      VerifyResult.ok ∧
    (unlockApp H0 "1234" (setPIN H0 "1234" "s" baseState).1 0).1.isLocked =
      false :=
  C2_setup_unlock H0 "1234" "s" baseState 0 (by decide) (by decide)
    (by decide) (by decide)

/-- C3: Delay schedule — the delay is 0 up to 3 failures, 5 s for 4–5,
30 s for 6–7, 5 min for 8–9 and the 30-minute lockout value from 10 on;
`handleFailedAttempt` returns exactly the scheduled delay (outside paranoia
mode) with the locked flag at the threshold; and the schedule is
non-decreasing in the attempt count. -/
theorem C3_delay_schedule :
    (∀ n, n ≤ 3 → getDelayForAttempts n = 0) ∧
    (∀ n, 4 ≤ n → n ≤ 5 → getDelayForAttempts n = 5000) ∧
    (∀ n, 6 ≤ n → n ≤ 7 → getDelayForAttempts n = 30000) ∧
    (∀ n, 8 ≤ n → n ≤ 9 → getDelayForAttempts n = 300000) ∧
    (∀ n, 10 ≤ n → getDelayForAttempts n = 1800000) ∧
    (∀ s : SecState, ∀ now : Nat, s.deleteOnMaxAttempts = false →
      (handleFailedAttempt s now).2 =
        VerifyResult.failed (s.failedAttempts + 1)
          (s.maxAttempts - (s.failedAttempts + 1))
          (getDelayForAttempts (s.failedAttempts + 1))
          (decide (s.maxAttempts ≤ s.failedAttempts + 1))) ∧
    (∀ m n, m ≤ n → getDelayForAttempts m ≤ getDelayForAttempts n) := by
  refine ⟨?_, ?_, ?_, ?_, ?_, ?_, ?_⟩
  · intro n h
    rw [getDelayForAttempts_closed, if_pos h]
  · intro n h1 h2
    rw [getDelayForAttempts_closed, if_neg (by omega), if_pos (by omega)]
  · intro n h1 h2
    rw [getDelayForAttempts_closed, if_neg (by omega), if_neg (by omega),
        if_pos (by omega)]
  · intro n h1 h2
    rw [getDelayForAttempts_closed, if_neg (by omega), if_neg (by omega),
        if_neg (by omega), if_pos (by omega)]
  · intro n h
    rw [getDelayForAttempts_closed, if_neg (by omega), if_neg (by omega),
        if_neg (by omega), if_neg (by omega)]
  · intro s now h
    simp [handleFailedAttempt, h]
  · intro m n h
    rw [getDelayForAttempts_closed, getDelayForAttempts_closed]
    split_ifs <;> omega

/-- Witness for C3 at the tier boundaries and one monotone pair. -/
theorem C3_delay_schedule_witness :
    getDelayForAttempts 3 = 0 ∧ getDelayForAttempts 4 = 5000 ∧
    getDelayForAttempts 6 = 30000 ∧ getDelayForAttempts 8 = 300000 ∧
    getDelayForAttempts 10 = 1800000 ∧
    (handleFailedAttempt { baseState with failedAttempts := 3 } 0).2 =
      VerifyResult.failed 4 6 5000 false ∧
    getDelayForAttempts 4 ≤ getDelayForAttempts 10 :=
  ⟨C3_delay_schedule.1 3 (by decide),
   C3_delay_schedule.2.1 4 (by decide) (by decide),
   C3_delay_schedule.2.2.1 6 (by decide) (by decide),
   C3_delay_schedule.2.2.2.1 8 (by decide) (by decide),
   C3_delay_schedule.2.2.2.2.1 10 (by decide),
   (C3_delay_schedule.2.2.2.2.2.1 { baseState with failedAttempts := 3 } 0
      rfl).trans (by decide),
   C3_delay_schedule.2.2.2.2.2.2 4 10 (by decide)⟩

/-- C4 (counterexample): `setPIN` accepts the four-letter, non-digit input
"abcd": it returns success and stores a PIN record, although the renderer
validator `validatePIN` classifies "abcd" as invalid. -/
theorem C4_counterexample :
    (setPIN H0 "abcd" "salt0" baseState).2 = true ∧
    isPINSet (setPIN H0 "abcd" "salt0" baseState).1 = true ∧
    validatePIN "abcd" = false := by
  decide

/-- C4 (amended): `setPIN` accepts exactly the non-empty strings of 4–8
characters regardless of their content, and stores nothing on rejection;
the digits-only restriction is enforced only by the setup screen's
`validatePIN`, whose accepted inputs `setPIN` always accepts. -/
theorem C4_setPIN_length_only (H : String → String → String)
    (pin salt : String) (s : SecState) :
    ((setPIN H pin salt s).2 = true ↔
      (¬ pin = "" ∧ 4 ≤ pin.length ∧ pin.length ≤ 8)) ∧
    ((setPIN H pin salt s).2 = false → (setPIN H pin salt s).1 = s) ∧
    (validatePIN pin = true → (setPIN H pin salt s).2 = true) := by
  refine ⟨⟨?_, ?_⟩, ?_, ?_⟩
  · intro ht
    simp only [setPIN] at ht
    split_ifs at ht with h
    push_neg at h
    obtain ⟨ha, hb, hc⟩ := h
    exact ⟨ha, by omega, by omega⟩
  · rintro ⟨h1, h2, h3⟩
    simp only [setPIN]
    rw [if_neg (by push_neg; exact ⟨h1, by omega, by omega⟩)]
  · intro hf
    simp only [setPIN] at hf ⊢
    split_ifs at hf ⊢ with h
    rfl
  · intro hv
    simp only [validatePIN, Bool.and_eq_true, decide_eq_true_eq] at hv
    obtain ⟨⟨h4, h8⟩, -⟩ := hv
    simp only [setPIN]
    rw [if_neg]
    push_neg
    refine ⟨?_, by omega, by omega⟩
    intro h
    rw [h] at h4
    exact absurd h4 (by decide)

/-- Witness for C4 (amended): a 5-digit PIN is accepted; the too-short
input "12" is rejected and leaves the state unchanged. -/
theorem C4_setPIN_length_only_witness :
    (setPIN H0 "12345" "s" baseState).2 = true ∧
    (setPIN H0 "12" "s" baseState).1 = baseState :=
  ⟨(C4_setPIN_length_only H0 "12345" "s" baseState).1.mpr (by decide),
   (C4_setPIN_length_only H0 "12" "s" baseState).2.1 (by decide)⟩

/-- C5: Failure counting — after setting a valid PIN `p1`, unlocking with a
different valid `p2` (whose salted hash differs) is rejected, increments
the stored counter from the fresh 0 to exactly 1, and reports
`maxAttempts - 1` remaining attempts. -/
theorem C5_failure_counting (H : String → String → String)
    (p1 p2 salt : String) (s : SecState) (now : Nat)
    (_hne : p1 ≠ p2)
    (h14 : 4 ≤ p1.length) (h18 : p1.length ≤ 8)
    (_h24 : 4 ≤ p2.length) (_h28 : p2.length ≤ 8)
    (hmax : 1 < s.maxAttempts)
    (hcoll : ¬ H p2 salt = H p1 salt) :
    ((unlockApp H p2 (setPIN H p1 salt s).1 now).2).success = false ∧
    (unlockApp H p2 (setPIN H p1 salt s).1 now).1.failedAttempts =
      (setPIN H p1 salt s).1.failedAttempts + 1 ∧
    (unlockApp H p2 (setPIN H p1 salt s).1 now).2 =
      VerifyResult.failed 1 (s.maxAttempts - 1) 0 false := by
  rw [setPIN_accepted H p1 salt s h14 h18]
  set s1 : SecState := resetFailedAttempts
    { s with pinData := some ⟨salt, H p1 salt⟩, pinEnabled := true } with hs1
  have hpd : s1.pinData = some ⟨salt, H p1 salt⟩ := rfl
  have h0 : s1.failedAttempts = 0 := rfl
  have hm : 1 < s1.maxAttempts := hmax
  have hv := verifyPIN_fresh_wrong H p2 s1 now ⟨salt, H p1 salt⟩ hpd h0 hm hcoll
  simp only [unlockApp, hv, VerifyResult.success]
  simp [VerifyResult.success]
  exact ⟨h0, rfl⟩

/-- Witness for C5: set "1234", try "9999" — rejected with counter 1 and 9
remaining. -/
theorem C5_failure_counting_witness :
    ((unlockApp H0 "9999" (setPIN H0 "1234" "s" baseState).1 0).2).success =
      false ∧
    (unlockApp H0 "9999" (setPIN H0 "1234" "s" baseState).1 0).1.failedAttempts =
      (setPIN H0 "1234" "s" baseState).1.failedAttempts + 1 ∧
    (unlockApp H0 "9999" (setPIN H0 "1234" "s" baseState).1 0).2 =
      VerifyResult.failed 1 (baseState.maxAttempts - 1) 0 false :=
  C5_failure_counting H0 "1234" "9999" "s" baseState 0 (by decide) (by decide)
    (by decide) (by decide) (by decide) (by decide) (by decide)

/-- C6: Reset on success — a successful verification zeroes the stored
`failedAttempts` and clears `lastFailedAttempt`, so the next wrong attempt
(under a threshold above 1) yields the tier-1 delay 0 rather than an
escalated one. -/
theorem C6_reset_on_success (H : String → String → String)
    (pin wrong : String) (s : SecState) (now now2 : Nat)
    (hok : (verifyPIN H pin s now).2 = VerifyResult.ok)
    (hmax : 1 < s.maxAttempts)
    (hcoll : ∀ pd : PinRecord, s.pinData = some pd →
      ¬ H wrong pd.salt = pd.hash) :
    (verifyPIN H pin s now).1.failedAttempts = 0 ∧
    (verifyPIN H pin s now).1.lastFailedAttempt = none ∧
    (verifyPIN H wrong (verifyPIN H pin s now).1 now2).2 =
      VerifyResult.failed 1 (s.maxAttempts - 1) 0 false := by
  obtain ⟨⟨pd, hpd, hh⟩, hst⟩ := verifyPIN_ok_inv H pin s now hok
  have hc := checkLockout_preserves s now
  have h20 : (verifyPIN H pin s now).1.failedAttempts = 0 := by
    rw [hst]; rfl
  have h2l : (verifyPIN H pin s now).1.lastFailedAttempt = none := by
    rw [hst]; rfl
  have h2pd : (verifyPIN H pin s now).1.pinData = some pd := by
    rw [hst]
    show (checkLockout s now).1.pinData = some pd
    rw [hc.1, hpd]
  have h2m : (verifyPIN H pin s now).1.maxAttempts = s.maxAttempts := by
    rw [hst]
    exact hc.2.2.1
  refine ⟨h20, h2l, ?_⟩
  have hv := verifyPIN_fresh_wrong H wrong ((verifyPIN H pin s now).1) now2 pd
    h2pd h20 (by rw [h2m]; exact hmax) (hcoll pd hpd)
  rw [hv]
  simp [h2m]

/-- Witness for C6: five failures on the stored PIN "1234", then a correct
unlock, then "9999" fails with the tier-1 delay. -/
theorem C6_reset_on_success_witness :
    (verifyPIN H0 "1234"
        { sPinned with failedAttempts := 5, lastFailedAttempt := some 0 }
        0).1.failedAttempts = 0 ∧
    (verifyPIN H0 "1234"
        { sPinned with failedAttempts := 5, lastFailedAttempt := some 0 }
        0).1.lastFailedAttempt = none ∧
    (verifyPIN H0 "9999"
        (verifyPIN H0 "1234"
          { sPinned with failedAttempts := 5, lastFailedAttempt := some 0 }
          0).1 1).2 =
      VerifyResult.failed 1 9 0 false :=
  C6_reset_on_success H0 "1234" "9999"
    { sPinned with failedAttempts := 5, lastFailedAttempt := some 0 } 0 1
    (by decide) (by decide)
    (by rintro pd h; injection h with h2; rw [← h2]; decide)

/-- C7: Gated PIN removal — `removePIN pin` deletes the stored record and
disables the PIN flag exactly when `pin` verifies against the stored
record; whenever verification fails (wrong PIN or lockout) the record and
the flag are unchanged. -/
theorem C7_gated_removal (H : String → String → String) (pin : String)
    (s : SecState) (now : Nat) :
    ((removePIN H pin s now).2 = true ↔
      ((verifyPIN H pin s now).2).success = true) ∧
    ((removePIN H pin s now).2 = true →
      (removePIN H pin s now).1.pinData = none ∧
      (removePIN H pin s now).1.pinEnabled = false) ∧
    ((removePIN H pin s now).2 = false →
      (removePIN H pin s now).1.pinData = s.pinData ∧
      (removePIN H pin s now).1.pinEnabled = s.pinEnabled) := by
  have hp := verifyPIN_preserves H pin s now
  by_cases hs : ((verifyPIN H pin s now).2).success = true
  · have hcond : ¬ ((verifyPIN H pin s now).2).success = false := by
      simp [hs]
    simp only [removePIN]
    rw [if_neg hcond]
    simp [hs, resetFailedAttempts]
  · simp only [Bool.not_eq_true] at hs
    simp only [removePIN]
    rw [if_pos hs]
    simp [hs, hp.1, hp.2]

/-- Witness for C7: with the stored PIN "1234", removal with "1234"
deletes the record; removal with "9999" keeps it. -/
theorem C7_gated_removal_witness :
    (removePIN H0 "1234" sPinned 0).1.pinData = none ∧
    (removePIN H0 "9999" sPinned 0).1.pinData = some ⟨"s", "1234s"⟩ :=
  ⟨((C7_gated_removal H0 "1234" sPinned 0).2.1 (by decide)).1,
   (((C7_gated_removal H0 "9999" sPinned 0).2.2 (by decide)).1).trans rfl⟩

/-- C8 (counterexample): `checkLockout` is not a pure read — on a state at
the threshold (10 failures, last at time 0) queried once the 30-minute
lockout has elapsed, it resets the stored `failedAttempts` from 10 to 0 and
clears `lastFailedAttempt`. -/
theorem C8_counterexample :
    (checkLockout
        { baseState with failedAttempts := 10, lastFailedAttempt := some 0 }
        1800000).1.failedAttempts = 0 ∧
    (checkLockout
        { baseState with failedAttempts := 10, lastFailedAttempt := some 0 }
        1800000).1.lastFailedAttempt = none ∧
    ({ baseState with failedAttempts := 10, lastFailedAttempt := some 0 } :
      SecState).failedAttempts = 10 := by
  decide

/-- C8 (amended): `checkLockout` reports a lockout with the exact remaining
time iff `failedAttempts` has reached `maxAttempts` and less than the
configured duration has elapsed; it leaves the state unchanged while
locked out or below the threshold, but when the lockout has expired it
lazily resets `failedAttempts` to 0 and clears `lastFailedAttempt`. -/
theorem C8_checkLockout_lazy_reset (s : SecState) (now : Nat) :
    ((checkLockout s now).2.locked = true ↔
      (s.maxAttempts ≤ s.failedAttempts ∧
       (now : Int) - (s.lastFailedAttempt.getD 0 : Nat) <
         (s.lockoutDurationMin : Int) * 60 * 1000)) ∧
    ((checkLockout s now).2.locked = true →
      (checkLockout s now).2.remainingTime =
        (s.lockoutDurationMin : Int) * 60 * 1000 -
          ((now : Int) - (s.lastFailedAttempt.getD 0 : Nat)) ∧
      (checkLockout s now).1 = s) ∧
    (s.failedAttempts < s.maxAttempts → (checkLockout s now).1 = s) ∧
    (s.maxAttempts ≤ s.failedAttempts →
      ¬ (now : Int) - (s.lastFailedAttempt.getD 0 : Nat) <
          (s.lockoutDurationMin : Int) * 60 * 1000 →
      (checkLockout s now).1 = resetFailedAttempts s) := by
  refine ⟨⟨?_, ?_⟩, ?_, ?_, ?_⟩
  · intro hl
    simp only [checkLockout] at hl
    split_ifs at hl with h1 h2
    exact ⟨h1, h2⟩
  · rintro ⟨h1, h2⟩
    simp only [checkLockout]
    rw [if_pos h1, if_pos h2]
  · intro hl
    simp only [checkLockout] at hl ⊢
    split_ifs at hl ⊢ with h1 h2
    exact ⟨rfl, rfl⟩
  · intro hb
    simp only [checkLockout]
    rw [if_neg (by omega)]
  · intro h1 h2
    simp only [checkLockout]
    rw [if_pos h1, if_neg h2]

/-- Witness for C8 (amended): a state at the threshold one minute in is
locked; a fresh state is left unchanged. -/
theorem C8_checkLockout_lazy_reset_witness :
    (checkLockout
        { baseState with failedAttempts := 10, lastFailedAttempt := some 0 }
        60000).2.locked = true ∧
    (checkLockout baseState 0).1 = baseState :=
  ⟨(C8_checkLockout_lazy_reset _ 60000).1.mpr (by decide),
   (C8_checkLockout_lazy_reset baseState 0).2.2.1 (by decide)⟩

/-- C9 (counterexample): the overwrite-failure fallback of
`secureDeleteFile` is swallowed, not observable — on a read-only (but
deletable) file the fallback unlink runs, yet the caller-visible outcome
(no exception; the final file system) is identical to the no-fallback run
on a writable file. -/
theorem C9_counterexample :
    (secureDeleteFile rand0
      [("f", { content := [7, 7], writable := false, deletable := true })]
      "f").usedFallback = true ∧
    (secureDeleteFile rand0
      [("f", { content := [7, 7], writable := true, deletable := true })]
      "f").usedFallback = false ∧
    (secureDeleteFile rand0
      [("f", { content := [7, 7], writable := false, deletable := true })]
      "f").thrown =
      (secureDeleteFile rand0
        [("f", { content := [7, 7], writable := true, deletable := true })]
        "f").thrown ∧
    (secureDeleteFile rand0
      [("f", { content := [7, 7], writable := false, deletable := true })]
      "f").fs =
      (secureDeleteFile rand0
        [("f", { content := [7, 7], writable := true, deletable := true })]
        "f").fs := by
  decide

/-- C9 (amended): on an existing writable file `secureDeleteFile` performs
exactly three passes of random data of the file's current byte length
followed by the unlink (after which the path no longer exists); if the
overwrite fails it falls back to a plain unlink; it never propagates an
exception to the caller — so the fallback is silent, not observable. -/
theorem C9_secure_delete (rand : Nat → Nat → List Nat) (fs : FSState)
    (p : String) (info : FileInfo)
    (hpd : fsLookup fs p = some info)
    (hrand : ∀ i m, (rand i m).length = m) :
    (info.writable = true →
      (secureDeleteFile rand fs p).events =
        [FSEvent.write p (rand 0 info.content.length),
         FSEvent.write p (rand 1 info.content.length),
         FSEvent.write p (rand 2 info.content.length)] ++
        (if info.deletable then [FSEvent.unlink p] else []) ∧
      (∀ i, (rand i info.content.length).length = info.content.length) ∧
      (info.deletable = true →
        fsLookup (secureDeleteFile rand fs p).fs p = none ∧
        (secureDeleteFile rand fs p).usedFallback = false)) ∧
    (info.writable = false →
      (secureDeleteFile rand fs p).usedFallback = true ∧
      (info.deletable = true →
        fsLookup (secureDeleteFile rand fs p).fs p = none)) ∧
    (secureDeleteFile rand fs p).thrown = none := by
  refine ⟨?_, ?_, ?_⟩
  · intro hw
    simp only [secureDeleteFile, hpd, hw, if_true]
    refine ⟨?_, fun i => hrand i info.content.length, ?_⟩
    · by_cases hd : info.deletable <;> simp [hd]
    · intro hd
      simp [hd, fsLookup_fsRemove]
  · intro hw
    simp only [secureDeleteFile, hpd, hw]
    constructor
    · by_cases hd : info.deletable <;> simp [hd]
    · intro hd
      simp [hd, fsLookup_fsRemove]
  · simp only [secureDeleteFile, hpd]
    split_ifs <;> rfl

/-- Witness for C9 (amended) on a concrete three-byte writable file. -/
theorem C9_secure_delete_witness :
    fsLookup
      (secureDeleteFile rand0
        [("f", { content := [1, 2, 3], writable := true, deletable := true })]
        "f").fs "f" = none ∧
    (secureDeleteFile rand0
      [("f", { content := [1, 2, 3], writable := true, deletable := true })]
      "f").thrown = none := by
  have h := C9_secure_delete rand0
    [("f", { content := [1, 2, 3], writable := true, deletable := true })]
    "f" { content := [1, 2, 3], writable := true, deletable := true }
    (by decide) (fun i m => by simp [rand0])
  exact ⟨((h.1 rfl).2.2 rfl).1, h.2.2⟩

/-- C10: Shared failure counter — a wrong current PIN passed to
`unlockApp`, `changePIN` or `removePIN` (below the lockout threshold) goes
through the same `handleFailedAttempt` and increments the single stored
counter by exactly one; with paranoia mode on, a wrong current PIN in
`changePIN` that reaches `maxAttempts` itself triggers the session wipe. -/
theorem C10_shared_counter (H : String → String → String)
    (p newp salt : String) (s : SecState) (now : Nat) (pd : PinRecord)
    (hpd : s.pinData = some pd)
    (hh : ¬ H p pd.salt = pd.hash)
    (hbelow : s.failedAttempts < s.maxAttempts) :
    (unlockApp H p s now).1.failedAttempts = s.failedAttempts + 1 ∧
    (changePIN H p newp salt s now).1.failedAttempts = s.failedAttempts + 1 ∧
    (removePIN H p s now).1.failedAttempts = s.failedAttempts + 1 ∧
    (s.deleteOnMaxAttempts = true → s.failedAttempts + 1 = s.maxAttempts →
      (changePIN H p newp salt s now).1.sessionsWiped = true) := by
  have hv := verifyPIN_wrong_below H p s now pd hpd hh hbelow
  have hstate := handleFailedAttempt_state s now
  have hsucc := hstate.2.2
  have hnot : ¬ ((handleFailedAttempt s now).2).success = true := by
    simp [hsucc]
  refine ⟨?_, ?_, ?_, ?_⟩
  · simp only [unlockApp, hv]
    rw [if_neg hnot]
    exact hstate.1
  · simp only [changePIN, hv]
    rw [if_pos hsucc]
    exact hstate.1
  · simp only [removePIN, hv]
    rw [if_pos hsucc]
    exact hstate.1
  · intro hdel hthr
    simp only [changePIN, hv]
    rw [if_pos hsucc]
    simp only [handleFailedAttempt]
    rw [if_pos ⟨by omega, hdel⟩]
    rfl

/-- Witness for C10: stored PIN "1234", nine prior failures, paranoia mode
on — the wrong current PIN "9999" in `changePIN` bumps the counter to 10
and wipes the sessions. -/
theorem C10_shared_counter_witness :
    (unlockApp H0 "9999"
      { sPinned with failedAttempts := 9, deleteOnMaxAttempts := true }
      0).1.failedAttempts = 10 ∧
    (changePIN H0 "9999" "5678" "t"
      { sPinned with failedAttempts := 9, deleteOnMaxAttempts := true }
      0).1.sessionsWiped = true := by
  have h := C10_shared_counter H0 "9999" "5678" "t"
    { sPinned with failedAttempts := 9, deleteOnMaxAttempts := true } 0
    ⟨"s", "1234s"⟩ rfl (by decide) (by decide)
  exact ⟨h.1, h.2.2.2 rfl rfl⟩
